import Mathlib

/-!
Shallow embedding of the pool-reconciliation logic of the lg_ros_nodes repository:
`lg_common/src/lg_common/adhoc_browser_pool.py` (AdhocBrowserPool) and
`lg_media/scripts/image_viewer.py` (ImageViewer).  Python dicts are association
lists, ROS messages are structures, and the external process operations
(close, spawn, update_url, update_geometry, file removal) are recorded as
actions; calls that may raise are run in `Except Unit`, driven by a failure
oracle, because the Python code wraps only some of them in try/except.
-/

namespace LgRos

/-- ROS WindowGeometry message: window position and size. -/
structure WindowGeometry where
  x : Int
  y : Int
  width : Int
  height : Int
deriving DecidableEq

/-- ROS AdhocBrowser message: one desired browser (id, url, geometry). -/
structure AdhocBrowser where
  id : String
  url : String
  geometry : WindowGeometry
deriving DecidableEq

/-- ApplicationState message constants used by the pools. -/
inductive ApplicationState where
  | started
  | visible
  | stopped
deriving DecidableEq

/-- Modelled from the spec: the class `lg_common.ManagedAdhocBrowser` is imported by
adhoc_browser_pool.py but its source file is not among the repository sources; the spec's
ManagedInstance (§2, §4.2) is a handle {id, url, geometry, process-handle, visibility-state}
with Start/Stop/UpdateURL/UpdateGeometry/SetVisibility operations.  The pool stores these
handles in its dict; the constructor arguments used by `_create_browser` are kept as fields. -/
structure ManagedAdhocBrowser where
  slug : String
  url : String
  geometry : WindowGeometry
  state : ApplicationState
deriving DecidableEq

/-- Python dict lookup d[k] (the unique binding of k, if any). -/
def dictGet [BEq κ] (pool : List (κ × α)) (k : κ) : Option α :=
  (pool.find? (fun p => p.1 == k)).map Prod.snd

/-- Python dict assignment d[k] = v: replace the binding of k in place, else append. -/
def dictInsert [BEq κ] (pool : List (κ × α)) (k : κ) (v : α) : List (κ × α) :=
  if pool.any (fun p => p.1 == k) then
    pool.map (fun p => if p.1 == k then (k, v) else p)
  else
    pool ++ [(k, v)]

/-- Python del d[k]: drop the binding of k. -/
def dictErase [BEq κ] (pool : List (κ × α)) (k : κ) : List (κ × α) :=
  match pool with
  | [] => []
  | p :: rest => if p.1 == k then rest else p :: dictErase rest k

/-- Characters of the literal "ros_instance_name=". -/
def rosMarker : List Char := "ros_instance_name=".toList

/-- Tail test for the regular expression used by `_partition_existing_browser_ids`:
after the matched [&?], the string must continue with "ros_instance_name=" and then
contain no further '&' up to the end (the pattern is anchored with a dollar sign). -/
def rosTail (t : List Char) : Bool :=
  rosMarker.isPrefixOf t && !(t.drop rosMarker.length).contains '&'

/-- Embedding of re.sub(r"[&?]ros_instance_name=[^&]*$", "", url): the leftmost
position where the pattern matches (necessarily extending to the end of the string)
is deleted together with everything after it. -/
def stripRosParam : List Char → List Char
  | [] => []
  | c :: rest =>
      if (c == '&' || c == '?') && rosTail rest then [] else c :: stripRosParam rest

/-- String wrapper of `stripRosParam`. -/
def stripRosParamStr (s : String) : String :=
  (stripRosParam s.toList).asString

/-- Characters after the first occurrence of c, if c occurs. -/
def afterFirst (c : Char) : List Char → Option (List Char)
  | [] => none
  | d :: rest => if d == c then some rest else afterFirst c rest

/-- Characters before the first occurrence of c (the whole list when c is absent). -/
def beforeFirst (c : Char) : List Char → List Char
  | [] => []
  | d :: rest => if d == c then [] else d :: beforeFirst c rest

/-- Python urlparse(url).query: the text after the first '?' of the pre-fragment part.
urlparse always returns a str here — the empty string when there is no '?' — and never
None, which is why the result is always `some`. -/
def urlparseQuery (url : String) : Option String :=
  some (((afterFirst '?' (beforeFirst '#' url.toList)).getD []).asString)

/-- AdhocBrowserPool._add_ros_instance_url_param: meant to inject ros_instance_name as a
GET argument; the code picks '?' only when urlparse's query `is None`, which never holds
for a str, so the separator is always '&'. -/
def add_ros_instance_url_param (url rosInstanceName : String) : String :=
  let sep := match urlparseQuery url with
    | none => "?"
    | some _ => "&"
  url ++ sep ++ "ros_instance_name=" ++ rosInstanceName

/-- AdhocBrowserPool._get_ros_instance_id: "%s__%s__%s" % (type_key, viewport_name, id),
with type_key = "adhoc". -/
def get_ros_instance_id (viewportName newBrowserPoolId : String) : String :=
  "adhoc" ++ "__" ++ viewportName ++ "__" ++ newBrowserPoolId

/-- Pool state: the `self.browsers` dict of one AdhocBrowserPool. -/
abbrev BrowserPool := List (String × ManagedAdhocBrowser)

/-- Modelled from the spec: `lg_common.helpers.get_app_instances_ids` is imported by
adhoc_browser_pool.py but its source file is not among the repository sources; the spec's
step "Compute currentIds := keys(PoolState)" and the call-site comment "# set" define it
as the ids currently keyed in the pool, modeled as the list of keys. -/
def get_app_instances_ids (browsers : BrowserPool) : List String :=
  browsers.map Prod.fst

/-- AdhocBrowserPool._unpack_incoming_browsers: dict(b.id: b) over the message array. -/
def unpack_incoming_browsers (browsers : List AdhocBrowser) : List (String × AdhocBrowser) :=
  browsers.foldl (fun acc b => dictInsert acc b.id b) []

/-- AdhocBrowserPool._partition_existing_browser_ids: strip the downstream
ros_instance_name query addition from the urls of the pooled browsers, then split the
incoming browsers into those whose raw url occurs among the stripped urls (existing)
and the rest (fresh), returning both lists of ids. -/
def partition_existing_browser_ids (browsers : BrowserPool)
    (incomingBrowsers : List AdhocBrowser) : List String × List String :=
  let existingUrls := browsers.map (fun p => stripRosParamStr p.2.url)
  let browserExists := fun (b : AdhocBrowser) => existingUrls.contains b.url
  ((incomingBrowsers.filter (fun b => browserExists b)).map (fun b => b.id),
   (incomingBrowsers.filter (fun b => !browserExists b)).map (fun b => b.id))

/-- Failure oracle: which per-instance external operations raise, keyed by browser pool
id.  close/create failures are uncaught in the Python code; update_url and
update_geometry failures are caught by their wrappers. -/
structure FailOracle where
  closeFails : String → Bool
  createFails : String → Bool
  urlFails : String → Bool
  geomFails : String → Bool

/-- Oracle under which no external call raises. -/
def noFailures : FailOracle :=
  ⟨fun _ => false, fun _ => false, fun _ => false, fun _ => false⟩

/-- Observable process actions of the browser pool: close() of a managed browser, and
construction/start of a new one (with the url it was given). -/
inductive Action where
  | stop (id : String)
  | start (id : String) (url : String)
deriving DecidableEq

/-- AdhocBrowserPool._remove_browser: call .close() on the browser object and delete the
dict entry.  A missing id (KeyError) or a raising close() escapes as an exception. -/
def remove_browser (o : FailOracle) (browsers : BrowserPool) (browserPoolId : String) :
    Except Unit (BrowserPool × Action) :=
  match dictGet browsers browserPoolId with
  | none => .error ()
  | some _ =>
      if o.closeFails browserPoolId then .error ()
      else .ok (dictErase browsers browserPoolId, .stop browserPoolId)

/-- Managed browser as built by _create_browser: slug viewport_name + "_" + id, the url
with the ros_instance_name parameter appended, the requested geometry copied field by
field, and state VISIBLE after set_state(ApplicationState.VISIBLE). -/
def mkManagedBrowser (viewportName id : String) (b : AdhocBrowser) : ManagedAdhocBrowser :=
  { slug := viewportName ++ "_" ++ id
    url := add_ros_instance_url_param b.url (get_ros_instance_id viewportName id)
    geometry := ⟨b.geometry.x, b.geometry.y, b.geometry.width, b.geometry.height⟩
    state := .visible }

/-- AdhocBrowserPool._create_browser: construct the ManagedAdhocBrowser, set it VISIBLE,
store it under the id.  Construction or set_state raising is uncaught. -/
def create_browser (o : FailOracle) (viewportName : String) (browsers : BrowserPool)
    (id : String) (b : AdhocBrowser) : Except Unit (BrowserPool × Action) :=
  if o.createFails id then .error ()
  else
    let m := mkManagedBrowser viewportName id b
    .ok (dictInsert browsers id m, .start id m.url)

/-- Removal phase of handle_ros_message: every current id that is not in existing_ids is
removed; the loop stops at the first uncaught exception. -/
def remove_loop (o : FailOracle) (browsers : BrowserPool)
    (ids existingIds : List String) : Except Unit (BrowserPool × List Action) :=
  match ids with
  | [] => .ok (browsers, [])
  | id :: rest =>
      if id ∈ existingIds then remove_loop o browsers rest existingIds
      else do
        let r ← remove_browser o browsers id
        let r₂ ← remove_loop o r.1 rest existingIds
        return (r₂.1, r.2 :: r₂.2)

/-- Creation phase of handle_ros_message: every fresh id is looked up in the incoming
dict (KeyError escapes) and created; the loop stops at the first uncaught exception. -/
def create_loop (o : FailOracle) (viewportName : String) (browsers : BrowserPool)
    (incoming : List (String × AdhocBrowser)) (freshIds : List String) :
    Except Unit (BrowserPool × List Action) :=
  match freshIds with
  | [] => .ok (browsers, [])
  | id :: rest =>
      match dictGet incoming id with
      | none => .error ()
      | some b => do
          let r ← create_browser o viewportName browsers id b
          let r₂ ← create_loop o viewportName r.1 incoming rest
          return (r₂.1, r.2 :: r₂.2)

/-- AdhocBrowserPool.handle_ros_message, the body under self.lock, modeled as one atomic
function: unpack the incoming browsers, read the current ids, partition the incoming
browsers into existing and fresh by stripped url, remove every current id not in
existing_ids, create every fresh id, and return True.  The result carries the new pool,
the process actions performed, and the return value. -/
def handle_ros_message (o : FailOracle) (viewportName : String) (browsers : BrowserPool)
    (data : List AdhocBrowser) : Except Unit (BrowserPool × List Action × Bool) := do
  let incoming := unpack_incoming_browsers data
  let currentIds := get_app_instances_ids browsers
  let parts := partition_existing_browser_ids browsers (incoming.map Prod.snd)
  let r₁ ← remove_loop o browsers currentIds parts.1
  let r₂ ← create_loop o viewportName r₁.1 incoming parts.2
  return (r₂.1, r₁.2 ++ r₂.2, true)

/-- AdhocBrowserPool._update_browser_url: append the ros_instance_name parameter to the
future url and call update_url; any exception is caught and False returned.  (Modelled
from the spec for the instance side: §4.2, a failing UpdateURL leaves the instance in
its previous consistent state.) -/
def update_browser_url (o : FailOracle) (viewportName browserPoolId : String)
    (current : ManagedAdhocBrowser) (futureUrl : String) : ManagedAdhocBrowser × Bool :=
  if o.urlFails browserPoolId then (current, false)
  else
    ({ current with
        url := add_ros_instance_url_param futureUrl
          (get_ros_instance_id viewportName browserPoolId) }, true)

/-- AdhocBrowserPool._update_browser_geometry: call update_geometry; any exception is
caught and False returned.  (Modelled from the spec for the instance side: §4.2, a
failing UpdateGeometry leaves no torn geometry.) -/
def update_browser_geometry (o : FailOracle) (browserPoolId : String)
    (current : ManagedAdhocBrowser) (futureGeometry : WindowGeometry) :
    ManagedAdhocBrowser × Bool :=
  if o.geomFails browserPoolId then (current, false)
  else ({ current with geometry := futureGeometry }, true)

/-- AdhocBrowserPool._update_browser: look up the browser (a missing id would be an
uncaught KeyError), re-point the url when it differs from the stored one, and always
re-apply the geometry; the geometry success flag is only logged.  handle_ros_message
never invokes this method. -/
def update_browser (o : FailOracle) (viewportName : String) (browsers : BrowserPool)
    (browserPoolId : String) (updatedBrowser : AdhocBrowser) : Except Unit BrowserPool :=
  match dictGet browsers browserPoolId with
  | none => .error ()
  | some current =>
      let futureUrl := updatedBrowser.url
      let futureGeometry : WindowGeometry :=
        ⟨updatedBrowser.geometry.x, updatedBrowser.geometry.y,
         updatedBrowser.geometry.width, updatedBrowser.geometry.height⟩
      let c₁ := if current.url ≠ futureUrl then
          (update_browser_url o viewportName browserPoolId current futureUrl).1
        else current
      let c₂ := (update_browser_geometry o browserPoolId c₁ futureGeometry).1
      .ok (dictInsert browsers browserPoolId c₂)

/-- ROS ImageView message (lg_media): one desired image. -/
structure ImageView where
  url : String
  geometry : WindowGeometry
  viewport : String
  uuid : String
deriving DecidableEq

/-- Handle to one running image viewer process (the Image(ManagedApplication) object);
`tag` models Python object identity and `cmdLast` is cmd[-1], the path of the downloaded
file passed to pqiv. -/
structure ImageObj where
  tag : Nat
  cmdLast : String
deriving DecidableEq

/-- Observable actions of the image viewer pool: set_state(STOPPED) on a handle,
os.remove of a downloaded file, and creation of a new viewer process. -/
inductive ImgAction where
  | setStopped (tag : Nat)
  | removeFile (path : String)
  | create (tag : Nat) (uuid : String)
deriving DecidableEq

/-- State of one ImageViewer: the current_images dict plus the next fresh object tag. -/
structure ImageViewerState where
  currentImages : List (ImageView × ImageObj)
  nextTag : Nat
deriving DecidableEq

/-- ImageViewer.is_in_current_images: return the first tracked object whose stored
ImageView has the same url and the same (entire) geometry as the incoming image; None
otherwise. -/
def is_in_current_images (currentImages : List (ImageView × ImageObj))
    (image : ImageView) : Option ImageObj :=
  match currentImages with
  | [] => none
  | p :: rest =>
      if p.1.url == image.url && p.1.geometry == image.geometry then some p.2
      else is_in_current_images rest image

/-- Python list.remove(x): delete the first element equal to x; ValueError when absent. -/
def pyListRemove (l : List ImageObj) (x : ImageObj) : Except Unit (List ImageObj) :=
  match l with
  | [] => .error ()
  | y :: rest =>
      if y == x then .ok rest
      else (pyListRemove rest x).map (fun r => y :: r)

/-- ImageViewer._create_image: download image.url to save_path/uuid, spawn pqiv with
that path as the last command argument, set_state STARTED then VISIBLE.  The fresh
process handle is modeled by the supplied object tag. -/
def create_image (savePath : String) (tag : Nat) (image : ImageView) :
    ImageObj × ImgAction :=
  ({ tag := tag, cmdLast := savePath ++ "/" ++ image.uuid }, .create tag image.uuid)

/-- First loop of _handle_image_views: walk msg.images, skipping images for other
viewports; an image matching a current one (by url and geometry) is kept — its object is
taken off images_to_remove (list.remove, ValueError escapes) and re-keyed under the
incoming ImageView in new_current_images — and every other image goes to images_to_add. -/
def classify_images (currentImages : List (ImageView × ImageObj))
    (viewports : List String) :
    List ImageView → List (ImageView × ImageObj) → List ImageObj → List ImageView →
    Except Unit (List (ImageView × ImageObj) × List ImageObj × List ImageView)
  | [], newCur, toRemove, toAdd => .ok (newCur, toRemove, toAdd)
  | image :: rest, newCur, toRemove, toAdd =>
      if image.viewport ∈ viewports then
        match is_in_current_images currentImages image with
        | some dup => do
            let toRemove₂ ← pyListRemove toRemove dup
            classify_images currentImages viewports rest
              (dictInsert newCur image dup) toRemove₂ toAdd
        | none =>
            classify_images currentImages viewports rest newCur toRemove (toAdd ++ [image])
      else classify_images currentImages viewports rest newCur toRemove toAdd

/-- Second loop of _handle_image_views: every object left on images_to_remove gets
set_state(STOPPED), and its downloaded file cmd[-1] is os.remove'd when os.path.exists
says it is there (`ex` is the filesystem oracle). -/
def stop_images (ex : String → Bool) : List ImageObj → List ImgAction
  | [] => []
  | o :: rest =>
      (ImgAction.setStopped o.tag ::
        (if ex o.cmdLast then [ImgAction.removeFile o.cmdLast] else [])) ++
      stop_images ex rest

/-- Third loop of _handle_image_views: each image on images_to_add is created via
_create_image and stored in new_current_images under its ImageView. -/
def add_images (savePath : String) :
    List ImageView → List (ImageView × ImageObj) → Nat →
    List (ImageView × ImageObj) × Nat × List ImgAction
  | [], newCur, tag => (newCur, tag, [])
  | v :: rest, newCur, tag =>
      let c := create_image savePath tag v
      let r := add_images savePath rest (dictInsert newCur v c.1) (tag + 1)
      (r.1, r.2.1, c.2 :: r.2.2)

/-- ImageViewer._handle_image_views (the body of handle_image_views under self.lock):
classify the incoming images against current_images, stop and clean up every object no
longer wanted, create the new ones, and replace current_images with the rebuilt dict. -/
def handle_image_views (ex : String → Bool) (savePath : String)
    (viewports : List String) (st : ImageViewerState) (msgImages : List ImageView) :
    Except Unit (ImageViewerState × List ImgAction) := do
  let r ← classify_images st.currentImages viewports msgImages []
    (st.currentImages.map Prod.snd) []
  let stopActs := stop_images ex r.2.1
  let a := add_images savePath r.2.2 r.1 st.nextTag
  return ({ currentImages := a.1, nextTag := a.2.1 }, stopActs ++ a.2.2)

/-- Geometry fixture (0,0,100,100) of the spec scenario. -/
def geomSmall : WindowGeometry := ⟨0, 0, 100, 100⟩

/-- Geometry fixture (0,0,200,200) of the spec scenario. -/
def geomLarge : WindowGeometry := ⟨0, 0, 200, 200⟩

/-- Pool fixture: one running browser with id "a" on viewport "center", whose url
carries the injected correlation parameter for "http://u". -/
def runningA : BrowserPool :=
  [("a", { slug := "center_a", url := "http://u&ros_instance_name=adhoc__center__a",
           geometry := geomSmall, state := .visible })]

/-- Pool fixture: one running browser keyed "x" whose stripped url is "http://u". -/
def runningX : BrowserPool :=
  [("x", { slug := "center_x", url := "http://u&ros_instance_name=adhoc__center__x",
           geometry := geomSmall, state := .visible })]

/-- Pool fixture: runningA together with a second browser keyed "b" for "http://v". -/
def runningAB : BrowserPool :=
  runningA ++
  [("b", { slug := "center_b", url := "http://v&ros_instance_name=adhoc__center__b",
           geometry := geomSmall, state := .visible })]

/-- Oracle fixture: close() of browser id "a" raises; everything else succeeds. -/
def closeAFails : FailOracle :=
  ⟨fun id => id == "a", fun _ => false, fun _ => false, fun _ => false⟩

/-- Oracle fixture: update_geometry of browser id "b" raises; everything else succeeds. -/
def geomBFails : FailOracle :=
  ⟨fun _ => false, fun _ => false, fun _ => false, fun id => id == "b"⟩

/-- Image fixture: a running image view (url "http://img", small geometry). -/
def imgK : ImageView := ⟨"http://img", geomSmall, "center", "u0"⟩

/-- Image fixture: the same url with a different geometry (a geometry-only change). -/
def imgV : ImageView := ⟨"http://img", geomLarge, "center", "u1"⟩

/-- Image fixture: the running viewer process handle behind imgK. -/
def imgObjOld : ImageObj := ⟨3, "/tmp/lg/u0"⟩

/-- Image fixture: viewer state tracking imgK with next object tag 7. -/
def imgSt : ImageViewerState := ⟨[(imgK, imgObjOld)], 7⟩

@[simp]
theorem noFailures_closeFails (id : String) : noFailures.closeFails id = false := rfl

@[simp]
theorem noFailures_createFails (id : String) : noFailures.createFails id = false := rfl

@[simp]
theorem noFailures_urlFails (id : String) : noFailures.urlFails id = false := rfl

@[simp]
theorem noFailures_geomFails (id : String) : noFailures.geomFails id = false := rfl

/-- With no failing close and an empty existing set, the removal loop over the pool's
own keys closes every browser and empties the pool. -/
theorem remove_loop_drain :
    ∀ pool : BrowserPool,
      remove_loop noFailures pool (pool.map Prod.fst) [] =
        .ok ([], (pool.map Prod.fst).map Action.stop)
  | [] => rfl
  | (k, v) :: rest => by
      have ih := remove_loop_drain rest
      simp [remove_loop, remove_browser, dictGet, dictErase, ih,
        Bind.bind, Except.bind, Functor.map, Except.map, Pure.pure, Except.pure]

theorem amp_mem_drop (u tok : List Char)
    (hpre : rosMarker.isPrefixOf (u ++ '&' :: (rosMarker ++ tok)) = true) :
    '&' ∈ (u ++ '&' :: (rosMarker ++ tok)).drop rosMarker.length := by
  rcases Nat.lt_or_ge u.length rosMarker.length with hlt | hge
  · exfalso
    have hpre₂ : rosMarker <+: (u ++ '&' :: (rosMarker ++ tok)) := by
      simpa using hpre
    have htake : rosMarker = (u ++ '&' :: (rosMarker ++ tok)).take rosMarker.length :=
      List.prefix_iff_eq_take.mp hpre₂
    have hmem : '&' ∈ (u ++ '&' :: (rosMarker ++ tok)).take rosMarker.length := by
      rw [List.take_append_eq_append_take]
      refine List.mem_append.mpr (Or.inr ?_)
      rcases hn : rosMarker.length - u.length with _ | n
      · omega
      · simp
    rw [← htake] at hmem
    exact absurd hmem (by decide)
  · rw [List.drop_append_eq_append_drop]
    refine List.mem_append.mpr (Or.inr ?_)
    have h0 : rosMarker.length - u.length = 0 := Nat.sub_eq_zero_of_le hge
    simp [h0]

theorem rosTail_mid_false (u tok : List Char) :
    rosTail (u ++ '&' :: (rosMarker ++ tok)) = false := by
  unfold rosTail
  cases hp : rosMarker.isPrefixOf (u ++ '&' :: (rosMarker ++ tok)) with
  | false => simp
  | true =>
      have hmem := amp_mem_drop u tok hp
      simp [List.contains, List.elem_eq_mem, hmem]

theorem stripRosParam_roundtrip (tok : List Char) (htok : '&' ∉ tok) :
    ∀ u : List Char, stripRosParam (u ++ '&' :: (rosMarker ++ tok)) = u
  | [] => by
      have h1 : rosMarker.isPrefixOf (rosMarker ++ tok) = true := by
        simp [List.isPrefixOf_iff_prefix]
      have h2 : (rosMarker ++ tok).drop rosMarker.length = tok := List.drop_left _ _
      simp [stripRosParam, rosTail, h1, h2, List.contains, List.elem_eq_mem, htok]
  | c :: u => by
      have ih := stripRosParam_roundtrip tok htok u
      have hmid := rosTail_mid_false u tok
      simp [stripRosParam, hmid, ih]

theorem strip_add_roundtrip (u tok : String) (htok : '&' ∉ tok.toList) :
    stripRosParamStr (add_ros_instance_url_param u tok) = u := by
  have hdata : (add_ros_instance_url_param u tok).toList
      = u.toList ++ '&' :: (rosMarker ++ tok.toList) := by
    show (u ++ "&" ++ "ros_instance_name=" ++ tok).toList = _
    simp [String.toList, String.data_append, rosMarker]
  rw [stripRosParamStr, hdata, stripRosParam_roundtrip tok.toList htok,
    String.asString_toList]

theorem amp_notin_ros_instance_id (vp id : String)
    (hvp : '&' ∉ vp.toList) (hid : '&' ∉ id.toList) :
    '&' ∉ (get_ros_instance_id vp id).toList := by
  unfold get_ros_instance_id
  intro h
  simp [String.toList, String.data_append] at h
  exact h.elim hvp hid

theorem mem_dictInsert {κ α : Type} [BEq κ] [LawfulBEq κ] {acc : List (κ × α)} {k : κ}
    {v : α} {e : κ × α} (he : e ∈ dictInsert acc k v) : e ∈ acc ∨ e = (k, v) := by
  unfold dictInsert at he
  split at he
  · obtain ⟨p, hp, hpe⟩ := List.mem_map.mp he
    by_cases h : p.1 == k
    · right
      rw [if_pos h] at hpe
      exact hpe.symm
    · left
      rw [if_neg h] at hpe
      exact hpe ▸ hp
  · rcases List.mem_append.mp he with h | h
    · exact Or.inl h
    · exact Or.inr (List.mem_singleton.mp h)

theorem keys_dictInsert {κ α : Type} [BEq κ] [LawfulBEq κ] (acc : List (κ × α)) (k : κ)
    (v : α) :
    (dictInsert acc k v).map Prod.fst =
      if acc.any (fun p => p.1 == k) then acc.map Prod.fst
      else acc.map Prod.fst ++ [k] := by
  unfold dictInsert
  split
  · rw [List.map_map]
    refine List.map_congr_left ?_
    intro p _
    by_cases h : p.1 == k
    · simp only [Function.comp_apply, if_pos h]
      exact (eq_of_beq h).symm
    · simp [h]
  · simp

theorem dictInsert_append {κ α : Type} [BEq κ] [LawfulBEq κ] (acc : List (κ × α)) (k : κ)
    (v : α) (h : k ∉ acc.map Prod.fst) : dictInsert acc k v = acc ++ [(k, v)] := by
  have hc : ¬ acc.any (fun p => p.1 == k) = true := by
    intro hany
    obtain ⟨p, hp, hbeq⟩ := List.any_eq_true.mp hany
    exact h (List.mem_map.mpr ⟨p, hp, eq_of_beq hbeq⟩)
  unfold dictInsert
  rw [if_neg hc]

theorem keys_nodup_dictInsert {κ α : Type} [BEq κ] [LawfulBEq κ] (acc : List (κ × α))
    (k : κ) (v : α) (h : (acc.map Prod.fst).Nodup) :
    ((dictInsert acc k v).map Prod.fst).Nodup := by
  rw [keys_dictInsert]
  split
  · exact h
  · rename_i hany
    have hk : k ∉ acc.map Prod.fst := by
      intro hm
      obtain ⟨p, hp, hpk⟩ := List.mem_map.mp hm
      exact hany (List.any_eq_true.mpr ⟨p, hp, by simp [hpk]⟩)
    simp [List.nodup_append, h, hk]

theorem dictGet_isSome_of_key_mem {κ α : Type} [BEq κ] [LawfulBEq κ]
    {pool : List (κ × α)} {k : κ} (h : k ∈ pool.map Prod.fst) :
    (dictGet pool k).isSome := by
  obtain ⟨p, hp, hpk⟩ := List.mem_map.mp h
  have hfind : (List.find? (fun p => p.1 == k) pool).isSome :=
    List.find?_isSome.mpr ⟨p, hp, by simp [hpk]⟩
  obtain ⟨q, hq⟩ := Option.isSome_iff_exists.mp hfind
  simp [dictGet, hq]

theorem dictGet_of_mem_nodup {κ α : Type} [BEq κ] [LawfulBEq κ] :
    ∀ {pool : List (κ × α)} {e : κ × α}, (pool.map Prod.fst).Nodup → e ∈ pool →
      dictGet pool e.1 = some e.2
  | [], e, _, he => absurd he (List.not_mem_nil e)
  | p :: rest, e, hn, he => by
      rcases List.mem_cons.mp he with h | h
      · subst h
        simp [dictGet, List.find?_cons]
      · have hne : (p.1 == e.1) = false := by
          refine beq_eq_false_iff_ne.mpr ?_
          intro hpe
          have : e.1 ∈ rest.map Prod.fst := List.mem_map.mpr ⟨e, h, rfl⟩
          rw [← hpe] at this
          exact (List.nodup_cons.mp (by simpa using hn)).1 this
        have ih := dictGet_of_mem_nodup
          (List.nodup_cons.mp (by simpa using hn)).2 h
        simpa [dictGet, List.find?_cons, hne] using ih

theorem mem_keys_dictErase {κ α : Type} [BEq κ] [LawfulBEq κ] :
    ∀ {pool : List (κ × α)} {i k : κ}, i ≠ k → i ∈ pool.map Prod.fst →
      i ∈ (dictErase pool k).map Prod.fst
  | [], i, k, _, h => absurd h (by simp)
  | p :: rest, i, k, hne, h => by
      rw [List.map_cons, List.mem_cons] at h
      unfold dictErase
      by_cases hp : (p.1 == k) = true
      · simp only [hp, if_true]
        rcases h with h₁ | h₁
        · exact absurd (h₁.trans (eq_of_beq hp)) hne
        · exact h₁
      · rw [if_neg hp, List.map_cons, List.mem_cons]
        rcases h with h₁ | h₁
        · exact Or.inl h₁
        · exact Or.inr (mem_keys_dictErase hne h₁)

theorem unpack_invariant (P : String × AdhocBrowser → Prop) :
    ∀ (data : List AdhocBrowser) (acc : List (String × AdhocBrowser)),
      (∀ b ∈ data, P (b.id, b)) → (∀ e ∈ acc, P e) →
      ∀ e ∈ data.foldl (fun a b => dictInsert a b.id b) acc, P e
  | [], _acc, _, hacc, e, he => hacc e he
  | b :: rest, acc, hdata, hacc, e, he => by
      refine unpack_invariant P rest (dictInsert acc b.id b)
        (fun b₂ hb₂ => hdata b₂ (List.mem_cons_of_mem b hb₂)) ?_ e he
      intro e₂ he₂
      rcases mem_dictInsert he₂ with h | h
      · exact hacc e₂ h
      · exact h ▸ hdata b (List.mem_cons_self b rest)

theorem unpack_key_eq (data : List AdhocBrowser) :
    ∀ e ∈ unpack_incoming_browsers data, e.1 = e.2.id :=
  unpack_invariant (fun e => e.1 = e.2.id) data [] (fun _ _ => rfl) (by simp)

theorem unpack_val_mem (data : List AdhocBrowser) :
    ∀ e ∈ unpack_incoming_browsers data, e.2 ∈ data :=
  unpack_invariant (fun e => e.2 ∈ data) data [] (fun _ hb => hb) (by simp)

theorem unpack_keys_nodup_aux :
    ∀ (data : List AdhocBrowser) (acc : List (String × AdhocBrowser)),
      (acc.map Prod.fst).Nodup →
      ((data.foldl (fun a b => dictInsert a b.id b) acc).map Prod.fst).Nodup
  | [], _acc, h => h
  | b :: rest, acc, h =>
      unpack_keys_nodup_aux rest (dictInsert acc b.id b) (keys_nodup_dictInsert _ _ _ h)

theorem unpack_keys_nodup (data : List AdhocBrowser) :
    ((unpack_incoming_browsers data).map Prod.fst).Nodup :=
  unpack_keys_nodup_aux data [] (by simp)

theorem unpack_get (data : List AdhocBrowser) :
    ∀ e ∈ unpack_incoming_browsers data,
      dictGet (unpack_incoming_browsers data) e.1 = some e.2 :=
  fun _e he => dictGet_of_mem_nodup (unpack_keys_nodup data) he

theorem remove_loop_skip_all (o : FailOracle) (existing : List String) :
    ∀ (ids : List String) (pool : BrowserPool), (∀ id ∈ ids, id ∈ existing) →
      remove_loop o pool ids existing = .ok (pool, [])
  | [], _pool, _ => rfl
  | id :: rest, pool, h => by
      have hid : id ∈ existing := h id (List.mem_cons_self id rest)
      have ih := remove_loop_skip_all o existing rest pool
        (fun i hi => h i (List.mem_cons_of_mem id hi))
      simp [remove_loop, hid, ih]

theorem remove_loop_ok (o : FailOracle) (hclose : ∀ id, o.closeFails id = false)
    (existing : List String) :
    ∀ (ids : List String) (pool : BrowserPool), ids.Nodup →
      (∀ id ∈ ids, id ∈ pool.map Prod.fst) →
      ∃ r, remove_loop o pool ids existing = .ok r
  | [], pool, _, _ => ⟨(pool, []), rfl⟩
  | id :: rest, pool, hnd, hmem => by
      by_cases hex : id ∈ existing
      · obtain ⟨r, hr⟩ := remove_loop_ok o hclose existing rest pool
          (List.nodup_cons.mp hnd).2 (fun i hi => hmem i (List.mem_cons_of_mem id hi))
        exact ⟨r, by simp [remove_loop, hex, hr]⟩
      · have hid : id ∈ pool.map Prod.fst := hmem id (List.mem_cons_self id rest)
        obtain ⟨m, hm⟩ := Option.isSome_iff_exists.mp (dictGet_isSome_of_key_mem hid)
        have hmemrest : ∀ i ∈ rest, i ∈ (dictErase pool id).map Prod.fst := by
          intro i hi
          have hine : i ≠ id := by
            intro hcontra
            exact (List.nodup_cons.mp hnd).1 (hcontra ▸ hi)
          exact mem_keys_dictErase hine (hmem i (List.mem_cons_of_mem id hi))
        obtain ⟨r, hr⟩ := remove_loop_ok o hclose existing rest (dictErase pool id)
          (List.nodup_cons.mp hnd).2 hmemrest
        refine ⟨(r.1, .stop id :: r.2), ?_⟩
        simp [remove_loop, hex, remove_browser, hm, hclose, hr,
          Bind.bind, Except.bind, Pure.pure, Except.pure]

theorem create_loop_ok (o : FailOracle) (hcreate : ∀ id, o.createFails id = false)
    (vp : String) (incoming : List (String × AdhocBrowser)) :
    ∀ (ids : List String) (pool : BrowserPool),
      (∀ id ∈ ids, (dictGet incoming id).isSome) →
      ∃ r, create_loop o vp pool incoming ids = .ok r
  | [], pool, _ => ⟨(pool, []), rfl⟩
  | id :: rest, pool, hmem => by
      obtain ⟨b, hb⟩ := Option.isSome_iff_exists.mp
        (hmem id (List.mem_cons_self id rest))
      obtain ⟨r, hr⟩ := create_loop_ok o hcreate vp incoming rest
        (dictInsert pool id (mkManagedBrowser vp id b))
        (fun i hi => hmem i (List.mem_cons_of_mem id hi))
      refine ⟨(r.1, .start id (mkManagedBrowser vp id b).url :: r.2), ?_⟩
      simp [create_loop, hb, create_browser, hcreate, hr,
        Bind.bind, Except.bind, Pure.pure, Except.pure]

theorem create_loop_append (o : FailOracle) (hcreate : ∀ id, o.createFails id = false)
    (vp : String) (incoming : List (String × AdhocBrowser)) :
    ∀ (rest : List (String × AdhocBrowser)) (pool : BrowserPool),
      (∀ e ∈ rest, dictGet incoming e.1 = some e.2) →
      (rest.map Prod.fst).Nodup →
      (∀ e ∈ rest, e.1 ∉ pool.map Prod.fst) →
      create_loop o vp pool incoming (rest.map Prod.fst) =
        .ok (pool ++ rest.map (fun e => (e.1, mkManagedBrowser vp e.1 e.2)),
          rest.map (fun e => Action.start e.1 (mkManagedBrowser vp e.1 e.2).url))
  | [], pool, _, _, _ => by simp [create_loop]
  | e :: rest, pool, hget, hnd, hdisj => by
      have hb := hget e (List.mem_cons_self e rest)
      have hins : dictInsert pool e.1 (mkManagedBrowser vp e.1 e.2) =
          pool ++ [(e.1, mkManagedBrowser vp e.1 e.2)] :=
        dictInsert_append pool e.1 _ (hdisj e (List.mem_cons_self e rest))
      have hdisj₂ : ∀ e₂ ∈ rest,
          e₂.1 ∉ (pool ++ [(e.1, mkManagedBrowser vp e.1 e.2)]).map Prod.fst := by
        intro e₂ he₂ hmem
        rw [List.map_append, List.mem_append] at hmem
        rcases hmem with h | h
        · exact hdisj e₂ (List.mem_cons_of_mem e he₂) h
        · have h₃ : e₂.1 = e.1 := by simpa using h
          exact (List.nodup_cons.mp hnd).1 (h₃ ▸ List.mem_map.mpr ⟨e₂, he₂, rfl⟩)
      have ih := create_loop_append o hcreate vp incoming rest
        (pool ++ [(e.1, mkManagedBrowser vp e.1 e.2)])
        (fun e₂ he₂ => hget e₂ (List.mem_cons_of_mem e he₂))
        (List.nodup_cons.mp hnd).2 hdisj₂
      simp [create_loop, hb, create_browser, hcreate, hins, ih,
        Bind.bind, Except.bind, Pure.pure, Except.pure]

theorem partition_all_fresh (pool : BrowserPool) (inc : List AdhocBrowser)
    (h : ∀ b ∈ inc, b.url ∉ pool.map (fun p => stripRosParamStr p.2.url)) :
    partition_existing_browser_ids pool inc = ([], inc.map (fun b => b.id)) := by
  unfold partition_existing_browser_ids
  have h1 : inc.filter
      (fun b => (pool.map (fun p => stripRosParamStr p.2.url)).contains b.url) = [] :=
    List.filter_eq_nil_iff.mpr
      (fun b hb => by simp [List.contains, List.elem_eq_mem, h b hb])
  have h2 : inc.filter
      (fun b => !(pool.map (fun p => stripRosParamStr p.2.url)).contains b.url) = inc :=
    List.filter_eq_self.mpr
      (fun b hb => by simp [List.contains, List.elem_eq_mem, h b hb])
  simp only [h1, h2, List.map_nil]

theorem partition_all_existing (pool : BrowserPool) (inc : List AdhocBrowser)
    (h : ∀ b ∈ inc, b.url ∈ pool.map (fun p => stripRosParamStr p.2.url)) :
    partition_existing_browser_ids pool inc = (inc.map (fun b => b.id), []) := by
  unfold partition_existing_browser_ids
  have h1 : inc.filter
      (fun b => (pool.map (fun p => stripRosParamStr p.2.url)).contains b.url) = inc :=
    List.filter_eq_self.mpr
      (fun b hb => by simp [List.contains, List.elem_eq_mem, h b hb])
  have h2 : inc.filter
      (fun b => !(pool.map (fun p => stripRosParamStr p.2.url)).contains b.url) = [] :=
    List.filter_eq_nil_iff.mpr
      (fun b hb => by simp [List.contains, List.elem_eq_mem, h b hb])
  simp only [h1, h2, List.map_nil]


/-- C5: Empty-snapshot teardown — reconciling an empty snapshot closes every currently
tracked browser (a stop action is recorded for each tracked id), deletes every entry,
and returns True with the pool left empty. -/
theorem c5_empty_snapshot_teardown (viewportName : String) (pool : BrowserPool) :
    handle_ros_message noFailures viewportName pool [] =
      .ok ([], (get_app_instances_ids pool).map Action.stop, true) := by
  simp [handle_ros_message, unpack_incoming_browsers, partition_existing_browser_ids,
    get_app_instances_ids, remove_loop_drain, create_loop,
    Bind.bind, Except.bind, Functor.map, Except.map, Pure.pure, Except.pure]

/-- C1: URL-identity preservation fails on the code — with a running browser id "a" for
url "http://u" (correlation parameter stripped), a snapshot carrying id "b" with the
same url makes handle_ros_message close and delete the running browser and create
nothing: a Stop fires and no instance (neither "a" nor "b") survives, instead of the
claimed no-Stop id relabeling. -/
theorem c1_url_identity_failing_eval :
    handle_ros_message noFailures "center" runningA [⟨"b", "http://u", geomSmall⟩] =
      .ok ([], [Action.stop "a"], true) := rfl

/-- C2: Convergence fails on the code — at the same id-churn input (running "a", snapshot
id "b" with the same url), the pool's id set after the call is empty while the snapshot's
id set is the nonempty set containing "b". -/
theorem c2_convergence_failing_eval :
    (handle_ros_message noFailures "center" runningA
        [⟨"b", "http://u", geomSmall⟩]).map (fun r => get_app_instances_ids r.1) =
      .ok [] ∧ ["b"] ≠ ([] : List String) :=
  ⟨rfl, by simp⟩

/-- C3: the Update phase does not exist in handle_ros_message — for the snapshot item
whose id "a" is already tracked and whose geometry changed from (0,0,100,100) to
(0,0,200,200), the call returns the pool unchanged with no action at all: the geometry
is not re-applied (the stored geometry stays (0,0,100,100)) and no URL re-point occurs,
although _update_browser (never invoked) would have done both. -/
theorem c3_update_phase_failing_eval :
    handle_ros_message noFailures "center" runningA [⟨"a", "http://u", geomLarge⟩] =
      .ok (runningA, [], true) ∧
    (dictGet runningA "a").map ManagedAdhocBrowser.geometry = some geomSmall ∧
    geomSmall ≠ geomLarge :=
  ⟨rfl, rfl, by decide⟩

/-- C7: the correlation token is appended, but not as a query parameter when the
requested url has no query string — _create_browser produces
"http://example.com/page&ros_instance_name=adhoc__center__a" (separator '&', because
urlparse's query is a str, never None), and urlparse of that result yields an empty
query component, so the query does not contain the ros_instance_name parameter. -/
theorem c7_correlation_param_failing_eval :
    (mkManagedBrowser "center" "a" ⟨"a", "http://example.com/page", geomSmall⟩).url =
      "http://example.com/page&ros_instance_name=adhoc__center__a" ∧
    urlparseQuery "http://example.com/page&ros_instance_name=adhoc__center__a" =
      some "" :=
  ⟨rfl, rfl⟩

/-- C6 counterexample: a raising close() propagates out of handle_ros_message — with two
tracked browsers "a" and "b" and an empty snapshot, close() of "a" raising makes the
whole call raise: browser "b" is never processed and no overall success is returned. -/
theorem c6_isolation_counterexample :
    handle_ros_message closeAFails "center" runningAB [] = .error () := rfl

/-- C4 counterexample: reconciling the snapshot [(id "a", url "http://u")] twice in a row
is not quiet on the second call — from a pool tracking that url under key "x", the first
call empties the pool (the partition marks "a" existing, while the removal loop, which
compares current keys against incoming ids, drops "x"), and the second call then
performs a create (a Start action fires). -/
theorem c4_idempotence_counterexample :
    handle_ros_message noFailures "center" runningX [⟨"a", "http://u", geomSmall⟩] =
      .ok ([], [Action.stop "x"], true) ∧
    handle_ros_message noFailures "center" [] [⟨"a", "http://u", geomSmall⟩] =
      .ok ([("a", mkManagedBrowser "center" "a" ⟨"a", "http://u", geomSmall⟩)],
        [Action.start "a" "http://u&ros_instance_name=adhoc__center__a"], true) :=
  ⟨rfl, rfl⟩

/-- C8 counterexample: two snapshot items with distinct ids "b", "c" and one normalized
url "http://u" are not both tracked for every starting pool — against a pool already
holding that url under key "a", both items are classified existing, nothing is created,
and "a" itself is removed: the pool ends empty. -/
theorem c8_tiebreak_counterexample :
    handle_ros_message noFailures "center" runningA
      [⟨"b", "http://u", geomSmall⟩, ⟨"c", "http://u", geomSmall⟩] =
      .ok ([], [Action.stop "a"], true) := rfl

/-- C4 (amended): starting from an empty pool, for every snapshot whose viewport name
and item ids contain no '&' character, reconciling the snapshot twice in a row performs
no create and no remove action on the second call — the second call returns the same
pool with an empty action list — because stripping the injected correlation parameter
from a url produced by _add_ros_instance_url_param recovers the original url, so every
instance created by the first call is classified as existing by the second call.  (The
original claim, over every starting pool, is refuted by the counterexample.) -/
theorem c4_idempotence_amended (vp : String) (data : List AdhocBrowser)
    (hvp : '&' ∉ vp.toList) (hids : ∀ b ∈ data, '&' ∉ b.id.toList) :
    ∃ pool acts, handle_ros_message noFailures vp [] data = .ok (pool, acts, true) ∧
      handle_ros_message noFailures vp pool data = .ok (pool, [], true) := by
  set inc := unpack_incoming_browsers data with hinc
  have hkey : ∀ e ∈ inc, e.1 = e.2.id := unpack_key_eq data
  have hval : ∀ e ∈ inc, e.2 ∈ data := unpack_val_mem data
  have hnd : (inc.map Prod.fst).Nodup := unpack_keys_nodup data
  have hget : ∀ e ∈ inc, dictGet inc e.1 = some e.2 := unpack_get data
  have hidmap : (inc.map Prod.snd).map (fun b => b.id) = inc.map Prod.fst := by
    rw [List.map_map]
    exact List.map_congr_left (fun e he => (hkey e he).symm)
  have hpart₁ : partition_existing_browser_ids [] (inc.map Prod.snd) =
      ([], inc.map Prod.fst) := by
    rw [partition_all_fresh [] _ (by intro b _ h; simp at h), hidmap]
  have hpool : create_loop noFailures vp [] inc (inc.map Prod.fst) =
      .ok (inc.map (fun e => (e.1, mkManagedBrowser vp e.1 e.2)),
        inc.map (fun e => Action.start e.1 (mkManagedBrowser vp e.1 e.2).url)) := by
    have h := create_loop_append noFailures (fun _ => rfl) vp inc inc [] hget hnd
      (by simp)
    simpa using h
  set createdPool := inc.map (fun e => (e.1, mkManagedBrowser vp e.1 e.2)) with hcp
  have hfirst : handle_ros_message noFailures vp [] data =
      .ok (createdPool,
        inc.map (fun e => Action.start e.1 (mkManagedBrowser vp e.1 e.2).url),
        true) := by
    unfold handle_ros_message
    simp only [← hinc]
    rw [hpart₁]
    simp [get_app_instances_ids, remove_loop, hpool,
      Bind.bind, Except.bind, Pure.pure, Except.pure]
  have hkeys₂ : createdPool.map Prod.fst = inc.map Prod.fst := by
    rw [hcp, List.map_map]
    rfl
  have hurls : createdPool.map (fun p => stripRosParamStr p.2.url) =
      inc.map (fun e => e.2.url) := by
    rw [hcp, List.map_map]
    refine List.map_congr_left ?_
    intro e he
    show stripRosParamStr (mkManagedBrowser vp e.1 e.2).url = e.2.url
    unfold mkManagedBrowser
    refine strip_add_roundtrip _ _ (amp_notin_ros_instance_id vp e.1 hvp ?_)
    rw [hkey e he]
    exact hids e.2 (hval e he)
  have hpart₂ : partition_existing_browser_ids createdPool (inc.map Prod.snd) =
      (inc.map Prod.fst, []) := by
    rw [show inc.map Prod.fst = (inc.map Prod.snd).map (fun b => b.id) from hidmap.symm]
    apply partition_all_existing
    intro b hb
    rw [hurls]
    obtain ⟨e, he, rfl⟩ := List.mem_map.mp hb
    exact List.mem_map.mpr ⟨e, he, rfl⟩
  have hskip : remove_loop noFailures createdPool (createdPool.map Prod.fst)
      (inc.map Prod.fst) = .ok (createdPool, []) := by
    rw [hkeys₂]
    exact remove_loop_skip_all _ _ _ _ (fun i hi => hi)
  have hsecond : handle_ros_message noFailures vp createdPool data =
      .ok (createdPool, [], true) := by
    unfold handle_ros_message
    simp only [← hinc]
    rw [hpart₂]
    simp [get_app_instances_ids, hskip, create_loop,
      Bind.bind, Except.bind, Pure.pure, Except.pure]
  exact ⟨createdPool, _, hfirst, hsecond⟩

/-- C4 witness: the amended idempotence theorem applied to the concrete snapshot
[(id "a", url "http://u"), (id "b", url "http://v")] on viewport "center" from the
empty pool. -/
theorem c4_idempotence_amended_witness :
    ∃ pool acts,
      handle_ros_message noFailures "center" []
        [⟨"a", "http://u", geomSmall⟩, ⟨"b", "http://v", geomSmall⟩] =
          .ok (pool, acts, true) ∧
      handle_ros_message noFailures "center" pool
        [⟨"a", "http://u", geomSmall⟩, ⟨"b", "http://v", geomSmall⟩] =
          .ok (pool, [], true) :=
  c4_idempotence_amended "center"
    [⟨"a", "http://u", geomSmall⟩, ⟨"b", "http://v", geomSmall⟩]
    (by decide) (by decide)

/-- C6 (amended): only a raising close() or a raising create aborts the call — whenever
no close() and no construction raises (with update_url/update_geometry failures
arbitrary, since those are caught inside their wrappers), handle_ros_message on a pool
with distinct keys completes and returns True; and _update_browser on a present id never
raises for any oracle, whatever its url/geometry failure pattern. -/
theorem c6_isolation_amended (o : FailOracle) (vp : String) (pool : BrowserPool)
    (data : List AdhocBrowser) (hnd : (pool.map Prod.fst).Nodup)
    (hclose : ∀ id, o.closeFails id = false)
    (hcreate : ∀ id, o.createFails id = false) :
    (∃ p acts, handle_ros_message o vp pool data = .ok (p, acts, true)) ∧
    (∀ pid b m, dictGet pool pid = some m →
      ∃ p₂, update_browser o vp pool pid b = .ok p₂) := by
  constructor
  · obtain ⟨r₁, hr₁⟩ := remove_loop_ok o hclose
      (partition_existing_browser_ids pool
        ((unpack_incoming_browsers data).map Prod.snd)).1
      (pool.map Prod.fst) pool hnd (fun i hi => hi)
    have hfresh : ∀ id ∈ (partition_existing_browser_ids pool
        ((unpack_incoming_browsers data).map Prod.snd)).2,
        (dictGet (unpack_incoming_browsers data) id).isSome := by
      intro id hid
      unfold partition_existing_browser_ids at hid
      obtain ⟨b, hbfil, rfl⟩ := List.mem_map.mp hid
      have hbvals := List.mem_of_mem_filter hbfil
      obtain ⟨e, he, rfl⟩ := List.mem_map.mp hbvals
      rw [← unpack_key_eq data e he]
      exact dictGet_isSome_of_key_mem (List.mem_map.mpr ⟨e, he, rfl⟩)
    obtain ⟨r₂, hr₂⟩ := create_loop_ok o hcreate vp (unpack_incoming_browsers data)
      _ r₁.1 hfresh
    refine ⟨r₂.1, r₁.2 ++ r₂.2, ?_⟩
    simp [handle_ros_message, get_app_instances_ids, hr₁, hr₂,
      Bind.bind, Except.bind, Pure.pure, Except.pure]
  · intro pid b m hm
    unfold update_browser
    rw [hm]
    exact ⟨_, rfl⟩

/-- C6 witness: the amended isolation theorem applied to the two-browser pool with an
oracle whose update_geometry of id "b" raises (caught downstream) and whose close and
create never raise. -/
theorem c6_isolation_amended_witness :
    (∃ p acts, handle_ros_message geomBFails "center" runningAB
        [⟨"a", "http://u", geomSmall⟩] = .ok (p, acts, true)) ∧
    (∀ pid b m, dictGet runningAB pid = some m →
      ∃ p₂, update_browser geomBFails "center" runningAB pid b = .ok p₂) :=
  c6_isolation_amended geomBFails "center" runningAB [⟨"a", "http://u", geomSmall⟩]
    (by decide) (fun _ => rfl) (fun _ => rfl)

/-- C8 (amended): two snapshot items with distinct ids that share one url are both
tracked as distinct instances whenever no currently pooled browser's stripped url equals
that url (in particular from an empty pool): both are classified fresh, every current
browser is removed, and the final pool keys exactly the two ids with two distinct
managed instances.  (The original claim, over every starting pool, is refuted by the
counterexample.) -/
theorem c8_tiebreak_amended (vp : String) (pool : BrowserPool) (i1 i2 : AdhocBrowser)
    (hne : i1.id ≠ i2.id) (hurl : i2.url = i1.url)
    (hfresh : ∀ p ∈ pool, stripRosParamStr p.2.url ≠ i1.url) :
    handle_ros_message noFailures vp pool [i1, i2] =
      .ok ([(i1.id, mkManagedBrowser vp i1.id i1),
            (i2.id, mkManagedBrowser vp i2.id i2)],
        (pool.map Prod.fst).map Action.stop ++
          [Action.start i1.id (mkManagedBrowser vp i1.id i1).url,
           Action.start i2.id (mkManagedBrowser vp i2.id i2).url], true) := by
  have hb : (i1.id == i2.id) = false := beq_eq_false_iff_ne.mpr hne
  have hunpack : unpack_incoming_browsers [i1, i2] = [(i1.id, i1), (i2.id, i2)] := by
    simp [unpack_incoming_browsers, dictInsert, hb]
  have hpart : partition_existing_browser_ids pool [i1, i2] = ([], [i1.id, i2.id]) := by
    have h := partition_all_fresh pool [i1, i2] ?_
    · simpa using h
    · intro b hb₂ hmem
      obtain ⟨p, hp, hps⟩ := List.mem_map.mp hmem
      rcases List.mem_cons.mp hb₂ with h | h
      · exact hfresh p hp (h ▸ hps)
      · have h2 : b = i2 := by simpa using h
        exact hfresh p hp (by rw [hps, h2, hurl])
  have hget1 : dictGet [(i1.id, i1), (i2.id, i2)] i1.id = some i1 := by
    simp [dictGet, List.find?_cons]
  have hget2 : dictGet [(i1.id, i1), (i2.id, i2)] i2.id = some i2 := by
    simp [dictGet, List.find?_cons, hb]
  have hcreate := create_loop_append noFailures (fun _ => rfl) vp
    [(i1.id, i1), (i2.id, i2)] [(i1.id, i1), (i2.id, i2)] [] ?_ ?_ ?_
  · have hrem := remove_loop_drain pool
    simp only [List.map_cons, List.map_nil, List.nil_append] at hcreate
    unfold handle_ros_message
    rw [hunpack]
    simp only [List.map_cons, List.map_nil]
    rw [hpart]
    simp [get_app_instances_ids, hrem, hcreate,
      Bind.bind, Except.bind, Pure.pure, Except.pure]
  · intro e he
    rcases List.mem_cons.mp he with h | h
    · rw [h]; exact hget1
    · have h₃ : e = (i2.id, i2) := by simpa using h
      rw [h₃]; exact hget2
  · simp [hne]
  · simp

/-- C8 witness: the amended tie-break theorem applied to the pool holding url "http://u"
under key "x" and the concrete snapshot of ids "b", "c" sharing the url "http://w". -/
theorem c8_tiebreak_amended_witness :
    handle_ros_message noFailures "center" runningX
      [⟨"b", "http://w", geomSmall⟩, ⟨"c", "http://w", geomSmall⟩] =
      .ok ([("b", mkManagedBrowser "center" "b" ⟨"b", "http://w", geomSmall⟩),
            ("c", mkManagedBrowser "center" "c" ⟨"c", "http://w", geomSmall⟩)],
        (runningX.map Prod.fst).map Action.stop ++
          [Action.start "b" (mkManagedBrowser "center" "b"
              ⟨"b", "http://w", geomSmall⟩).url,
           Action.start "c" (mkManagedBrowser "center" "c"
              ⟨"c", "http://w", geomSmall⟩).url], true) :=
  c8_tiebreak_amended "center" runningX
    ⟨"b", "http://w", geomSmall⟩ ⟨"c", "http://w", geomSmall⟩
    (by decide) rfl (by decide)

/-- C10: the image-view pool treats an incoming image as a continuation only when url
and entire geometry match a tracked one — for a state tracking one running image, a
snapshot item with the same url on a served viewport but a different geometry matches
nothing (is_in_current_images is None), so the running viewer gets set_state(STOPPED),
its downloaded file (which exists) is os.remove'd, and a brand-new process with a fresh
object identity is created; there is no in-place geometry update. -/
theorem c10_image_geometry_restart (ex : String → Bool) (savePath : String)
    (viewports : List String) (st : ImageViewerState) (k v : ImageView) (o : ImageObj)
    (hcur : st.currentImages = [(k, o)]) (hvp : v.viewport ∈ viewports)
    (hurl : v.url = k.url) (hgeo : v.geometry ≠ k.geometry)
    (hex : ex o.cmdLast = true) (htag : o.tag < st.nextTag) :
    is_in_current_images st.currentImages v = none ∧
    handle_image_views ex savePath viewports st [v] =
      .ok ({ currentImages :=
               [(v, { tag := st.nextTag, cmdLast := savePath ++ "/" ++ v.uuid })],
             nextTag := st.nextTag + 1 },
        [ImgAction.setStopped o.tag, ImgAction.removeFile o.cmdLast,
         ImgAction.create st.nextTag v.uuid]) ∧
    st.nextTag ≠ o.tag := by
  have hgb : (k.geometry == v.geometry) = false :=
    beq_eq_false_iff_ne.mpr (fun hcontra => hgeo hcontra.symm)
  have hnone : is_in_current_images [(k, o)] v = none := by
    simp [is_in_current_images, hgb]
  refine ⟨hcur ▸ hnone, ?_, Nat.ne_of_gt htag⟩
  unfold handle_image_views
  rw [hcur]
  simp [classify_images, hvp, hnone, stop_images, hex, add_images, create_image,
    dictInsert, Bind.bind, Except.bind, Pure.pure, Except.pure]

/-- C10 witness: the geometry-only-change theorem applied to the concrete state
tracking one "http://img" viewer (object tag 3, downloaded file present) and the
incoming image with the same url and the larger geometry. -/
theorem c10_image_geometry_restart_witness :
    is_in_current_images imgSt.currentImages imgV = none ∧
    handle_image_views (fun _ => true) "/tmp/lg" ["center"] imgSt [imgV] =
      .ok ({ currentImages :=
               [(imgV, { tag := imgSt.nextTag,
                         cmdLast := "/tmp/lg" ++ "/" ++ imgV.uuid })],
             nextTag := imgSt.nextTag + 1 },
        [ImgAction.setStopped imgObjOld.tag, ImgAction.removeFile imgObjOld.cmdLast,
         ImgAction.create imgSt.nextTag imgV.uuid]) ∧
    imgSt.nextTag ≠ imgObjOld.tag :=
  c10_image_geometry_restart (fun _ => true) "/tmp/lg" ["center"] imgSt imgK imgV
    imgObjOld rfl (by decide) rfl (by decide) rfl (by decide)

end LgRos
